import Mathlib

/-!
Verification of the MarsRover repository (rover.py, error_handling.py).

The development has two layers:

* a typed embedding of the simulation loop of `rover_command`
  (rover.py lines 94-142), for inputs already known to be well-typed —
  integer coordinates, a direction drawn from the four-element direction
  list, a string of commands;

* a dynamic embedding of `validate_input_or_raise` (rover.py lines 31-74)
  and of the whole `rover_command` handler over a JSON value type, in
  which Python's dynamic typing is explicit: operations on values of the
  wrong runtime type return the corresponding Python exception
  (`TypeError`, `AttributeError`, ...) through `Except`.
-/

namespace MarsRover

/-- The four facing directions; rover.py keeps them in the list
`directions = ["N", "E", "S", "W"]`. -/
inductive Dir where
  | N
  | E
  | S
  | W
deriving DecidableEq, Repr

/-- rover.py line 22: `directions = ["N", "E", "S", "W"]`. -/
def directions : List Dir := [Dir.N, Dir.E, Dir.S, Dir.W]

/-- rover.py lines 23-28: `move_delta` maps each direction to its
`(dx, dy)` unit step. -/
def move_delta : Dir → Int × Int
  | Dir.N => (0, 1)
  | Dir.E => (1, 0)
  | Dir.S => (0, -1)
  | Dir.W => (-1, 0)

/-- rover.py line 44: `valid_cmds = set("fblr")` — the command alphabet
accepted by the validator (membership is all the set is used for). -/
def valid_cmds : List Char := ['f', 'b', 'l', 'r']

/-- Python `directions.index(direction)` (rover.py lines 112, 115). -/
def dirIndex : Dir → Int
  | Dir.N => 0
  | Dir.E => 1
  | Dir.S => 2
  | Dir.W => 3

/-- Python `directions[i % 4]` for the turn arithmetic of rover.py lines 113, 116;
the index is already reduced mod 4, so it lies in `[0, 4)`. -/
def dirAt (i : Int) : Dir :=
  match (i % 4).toNat with
  | 0 => Dir.N
  | 1 => Dir.E
  | 2 => Dir.S
  | _ => Dir.W

/-- rover.py line 113: `direction = directions[(idx - 1) % 4]`. -/
def turnLeft (d : Dir) : Dir := dirAt (dirIndex d - 1)

/-- rover.py line 116: `direction = directions[(idx + 1) % 4]`. -/
def turnRight (d : Dir) : Dir := dirAt (dirIndex d + 1)

/-- The mutable state of the command loop of `rover_command`
(rover.py lines 97-107): position, facing, hit flag, obstacle location,
processed-command counter. -/
structure SimState where
  x : Int
  y : Int
  dir : Dir
  hit_obstacle : Bool
  obstacle_at : Option (Int × Int)
  processed : Nat
deriving DecidableEq, Repr

/-- rover.py lines 118-124: the wrapped candidate position for a move
command `c` (one of `'f'`, `'b'`) from position `(x, y)` facing `d`:
the delta of the current direction, negated for `'b'`, applied with
Python's non-negative modulo (Lean's `Int.emod` agrees with Python `%`
for a positive modulus). -/
def candidate (width height x y : Int) (d : Dir) (c : Char) : Int × Int :=
  let p := move_delta d
  let q := if c = 'b' then (-p.1, -p.2) else p
  ((x + q.1) % width, (y + q.2) % height)

/-- rover.py lines 110-134: the command loop.  `'l'` and `'r'` rotate the
facing; `'f'` and `'b'` compute the wrapped candidate position and either
stop on an obstacle (without counting the command) or commit the move;
any other character falls through the `if`/`elif` chain and only counts
as processed. -/
def simLoop (width height : Int) (obstacle_set : List (Int × Int)) :
    List Char → SimState → SimState
  | [], s => s
  | c :: rest, s =>
    if c = 'l' then
      simLoop width height obstacle_set rest
        { s with dir := turnLeft s.dir, processed := s.processed + 1 }
    else if c = 'r' then
      simLoop width height obstacle_set rest
        { s with dir := turnRight s.dir, processed := s.processed + 1 }
    else if c = 'f' ∨ c = 'b' then
      let pos := candidate width height s.x s.y s.dir c
      if pos ∈ obstacle_set then
        { s with hit_obstacle := true, obstacle_at := some pos }
      else
        simLoop width height obstacle_set rest
          { s with x := pos.1, y := pos.2, processed := s.processed + 1 }
    else
      simLoop width height obstacle_set rest { s with processed := s.processed + 1 }

/-- The result dictionary built at rover.py lines 136-142. -/
structure SimResult where
  x : Int
  y : Int
  dir : Dir
  hit_obstacle : Bool
  obstacle_at : Option (Int × Int)
  processed : Nat
  remaining : List Char
deriving DecidableEq, Repr

/-- rover.py lines 97-142: run the command loop from the start pose with
fresh hit state, then assemble the result; `remaining` is
`commands[processed:]` (line 141). -/
def simulate (width height x y : Int) (d : Dir)
    (obstacle_set : List (Int × Int)) (commands : List Char) : SimResult :=
  let s := simLoop width height obstacle_set commands ⟨x, y, d, false, none, 0⟩
  ⟨s.x, s.y, s.dir, s.hit_obstacle, s.obstacle_at, s.processed,
    commands.drop s.processed⟩

/-! ### Dynamic embedding

`validate_input_or_raise` and the full `rover_command` handler operate on
a decoded JSON value with Python's dynamic typing made explicit: an
operation applied to a value of the wrong runtime type returns the
corresponding Python exception through `Except`.  `Json` models the
decoded request body, with JSON numbers restricted to integers — the
only numerals the validator's checks and the repository's tests use. -/

/-- A decoded JSON value. -/
inductive Json where
  | null
  | bool (b : Bool)
  | int (n : Int)
  | str (s : String)
  | arr (elems : List Json)
  | obj (fields : List (String × Json))

/-- Exceptions reachable from the handler: `validation` is
`error_handling.ValidationError` (mapped to a 400 response by
`register_error_handlers`); the rest are Python built-ins, which no
`errorhandler` maps to a 4xx — they hit the catch-all 500 handler of
error_handling.py lines 64-67. -/
inductive PyErr where
  | validation (msg : String)
  | typeError
  | attributeError
  | keyError
  | valueError
  | zeroDivisionError

/-- Python `data is None`. -/
def Json.isNone : Json → Bool
  | .null => true
  | _ => false

/-- First-match association-list lookup; `Json.obj` models a Python dict,
whose keys are unique. -/
def lookup (fields : List (String × Json)) (key : String) : Option Json :=
  match fields with
  | [] => none
  | (k, v) :: rest => if k = key then some v else lookup rest key

/-- Python `d.get(key, default)`: only dicts have `.get`; on any other
value the attribute access raises `AttributeError`. -/
def dictGet (d : Json) (key : String) (default : Json) : Except PyErr Json :=
  match d with
  | .obj fields => .ok ((lookup fields key).getD default)
  | _ => .error .attributeError

/-- Python `d[key]` for a string key: dict lookup (`KeyError` when the key
is missing); indexing a string, list or other value by a string raises
`TypeError`. -/
def getItem (d : Json) (key : String) : Except PyErr Json :=
  match d with
  | .obj fields =>
    match lookup fields key with
    | some v => .ok v
    | none => .error .keyError
  | _ => .error .typeError

/-- Python substring test `key in hay` for strings. -/
def strContains (hay key : String) : Bool :=
  if key = "" then true else (hay.splitOn key).length ≥ 2

/-- Python `key in d` for a string key: key test on dicts, `==`-membership
on lists (a string compares equal only to a string), substring test on
strings, `TypeError` on the remaining types. -/
def pyContains (key : String) (d : Json) : Except PyErr Bool :=
  match d with
  | .obj fields => .ok (lookup fields key).isSome
  | .arr elems =>
    .ok (elems.any fun j => match j with | .str s => s = key | _ => false)
  | .str s => .ok (strContains s key)
  | _ => .error .typeError

/-- Python `isinstance(v, int)` on a JSON value; `bool` is a subclass of
`int`. -/
def isIntInstance : Json → Bool
  | .int _ => true
  | .bool _ => true
  | _ => false

/-- The integer value of a JSON int or bool (Python coerces `True` and
`False` to 1 and 0 in arithmetic and comparisons); only applied after
`isIntInstance`. -/
def jsonAsInt : Json → Int
  | .int n => n
  | .bool b => if b then 1 else 0
  | _ => 0

/-- Python `v + d` with `d` an int: ints and bools add, everything else
raises `TypeError`. -/
def pyAddInt (v : Json) (d : Int) : Except PyErr Int :=
  match v with
  | .int n => .ok (n + d)
  | .bool b => .ok ((if b then 1 else 0) + d)
  | _ => .error .typeError

/-- Python `a % m` with `a` an int: defined for int and bool moduli
(`ZeroDivisionError` on zero), `TypeError` otherwise.  For a positive
modulus — the only moduli that survive validation — Python's `%` agrees
with `Int.emod`. -/
def pyMod (a : Int) (m : Json) : Except PyErr Int :=
  match m with
  | .int w => if w = 0 then .error .zeroDivisionError else .ok (a % w)
  | .bool b => if b then .ok (a % 1) else .error .zeroDivisionError
  | _ => .error .typeError

/-- rover.py line 22 as consumed with dynamic values: the list
`["N", "E", "S", "W"]` of direction names. -/
def directionNames : List String := ["N", "E", "S", "W"]

/-- rover.py lines 67-71: the per-obstacle checks of
`validate_input_or_raise` — each obstacle must be a dict carrying `x`
and `y` keys, both integers. -/
def checkObstacles : List Json → Except PyErr Unit
  | [] => .ok ()
  | o :: rest =>
    match o with
    | .obj fields =>
      match lookup fields "x", lookup fields "y" with
      | some xv, some yv =>
        if isIntInstance xv && isIntInstance yv then checkObstacles rest
        else .error (.validation "Obstacle coordinates must be integers.")
      | _, _ => .error (.validation "Obstacle missing x or y.")
    | _ => .error (.validation "Obstacle missing x or y.")

/-- rover.py lines 31-74: `validate_input_or_raise`, with the checks in
source order and Python's dynamic typing explicit.  The f-string
messages are abbreviated to their static prefixes. -/
def validate_input_or_raise (data : Json) : Except PyErr Unit := do
  if data.isNone then throw (.validation "Missing JSON body")
  let hasCommands ← pyContains "commands" data
  if !hasCommands then throw (.validation "Missing 'commands' field.")
  let commands ← getItem data "commands"
  let s ← match commands with
    | .str s => pure s
    | _ => throw (.validation "'commands' must be a string.")
  if (s.toList.filter fun c => !(valid_cmds.contains c.toLower)) ≠ [] then
    throw (.validation "Invalid command(s)")
  let start ← dictGet data "start" (Json.obj [])
  let direction ← dictGet start "dir" (Json.str "N")
  if !(match direction with | .str v => directionNames.contains v | _ => false) then
    throw (.validation "Invalid start direction")
  let grid ← dictGet data "grid" (Json.obj [])
  let hasWidth ← pyContains "width" grid
  if hasWidth then
    let w ← getItem grid "width"
    if !(isIntInstance w) || jsonAsInt w ≤ 0 then
      throw (.validation "'grid.width' must be a positive integer.")
  let hasHeight ← pyContains "height" grid
  if hasHeight then
    let h ← getItem grid "height"
    if !(isIntInstance h) || jsonAsInt h ≤ 0 then
      throw (.validation "'grid.height' must be a positive integer.")
  let obstacles ← dictGet data "obstacles" (Json.arr [])
  let os ← match obstacles with
    | .arr os => pure os
    | _ => throw (.validation "'obstacles' must be a list.")
  checkObstacles os

/-- The response dictionary of rover.py lines 136-142, with the dynamic
types the handler actually produces: the position components hold
whatever values `start` supplied until a committed move stores a Python
int. -/
structure RoverResult where
  x : Json
  y : Json
  dir : Json
  hit_obstacle : Bool
  obstacle_at : Option (Int × Int)
  processed_commands : Nat
  remaining_commands : String

/-- Python `{(o["x"], o["y"]) for o in obstacles}` (rover.py line 102): iterating
a list indexes each element; a non-empty dict yields string keys and a
non-empty string yields one-character strings, in both cases the string
index `o["x"]` raises `TypeError`; non-iterables raise `TypeError`
directly. -/
def buildObstacleSet : Json → Except PyErr (List (Json × Json))
  | .arr os => os.mapM fun o => do
      let xv ← getItem o "x"
      let yv ← getItem o "y"
      pure (xv, yv)
  | .obj [] => .ok []
  | .obj _ => .error .typeError
  | .str "" => .ok []
  | .str _ => .error .typeError
  | _ => .error .typeError

/-- Python `move_delta[direction]` (rover.py line 118) with a dynamic
direction:
dict lookup by `==`, `KeyError` when absent. -/
def moveDeltaDyn : Json → Except PyErr (Int × Int)
  | .str "N" => .ok (0, 1)
  | .str "E" => .ok (1, 0)
  | .str "S" => .ok (0, -1)
  | .str "W" => .ok (-1, 0)
  | _ => .error .keyError

/-- Python `directions.index(direction)` (rover.py lines 112, 115) with a
dynamic direction: `ValueError` when the value is not in the list. -/
def dirIndexDyn : Json → Except PyErr Int
  | .str "N" => .ok 0
  | .str "E" => .ok 1
  | .str "S" => .ok 2
  | .str "W" => .ok 3
  | _ => .error .valueError

/-- Python `==` between an int and a JSON value (`1 == True` holds). -/
def pyEqIntJson (n : Int) (j : Json) : Bool :=
  match j with
  | .int m => n = m
  | .bool b => n = (if b then 1 else 0)
  | _ => false

/-- The loop state of the handler (rover.py lines 97-107) with dynamic
position values. -/
structure DynState where
  x : Json
  y : Json
  direction : Json
  hit_obstacle : Bool
  obstacle_at : Option (Int × Int)
  processed : Nat

/-- rover.py lines 110-134 with dynamic values: the command loop as
executed by Python, every primitive operation possibly raising. -/
def dynLoop (width height : Json) (obstacle_set : List (Json × Json)) :
    List Char → DynState → Except PyErr DynState
  | [], s => .ok s
  | c :: rest, s =>
    if c = 'l' then do
      let idx ← dirIndexDyn s.direction
      dynLoop width height obstacle_set rest
        { s with direction := .str (directionNames.getD ((idx - 1) % 4).toNat "N"),
                 processed := s.processed + 1 }
    else if c = 'r' then do
      let idx ← dirIndexDyn s.direction
      dynLoop width height obstacle_set rest
        { s with direction := .str (directionNames.getD ((idx + 1) % 4).toNat "N"),
                 processed := s.processed + 1 }
    else if c = 'f' ∨ c = 'b' then do
      let delta ← moveDeltaDyn s.direction
      let delta := if c = 'b' then (-delta.1, -delta.2) else delta
      let xSum ← pyAddInt s.x delta.1
      let new_x ← pyMod xSum width
      let ySum ← pyAddInt s.y delta.2
      let new_y ← pyMod ySum height
      if obstacle_set.any fun o => pyEqIntJson new_x o.1 && pyEqIntJson new_y o.2 then
        .ok { s with hit_obstacle := true, obstacle_at := some (new_x, new_y) }
      else
        dynLoop width height obstacle_set rest
          { s with x := .int new_x, y := .int new_y, processed := s.processed + 1 }
    else
      dynLoop width height obstacle_set rest { s with processed := s.processed + 1 }

/-- rover.py lines 86-145: the body of `rover_command` after validation —
defaulted field extraction, obstacle-set construction, the command loop,
and result assembly.  `commands` is a string for every input that
passes validation; iteration over other types is not modelled. -/
def rover_command_body (data : Json) : Except PyErr RoverResult := do
  let grid ← dictGet data "grid" (Json.obj [("width", .int 10), ("height", .int 10)])
  let start ← dictGet data "start"
    (Json.obj [("x", .int 0), ("y", .int 0), ("dir", .str "N")])
  let obstacles ← dictGet data "obstacles" (Json.arr [])
  let commands ← dictGet data "commands" (Json.str "")
  let width ← dictGet grid "width" (Json.int 10)
  let height ← dictGet grid "height" (Json.int 10)
  let x ← dictGet start "x" (Json.int 0)
  let y ← dictGet start "y" (Json.int 0)
  let direction ← dictGet start "dir" (Json.str "N")
  let obstacle_set ← buildObstacleSet obstacles
  let cmdString ← match commands with
    | .str s => pure s
    | _ => .error .typeError
  let final ← dynLoop width height obstacle_set cmdString.toList
    ⟨x, y, direction, false, none, 0⟩
  pure ⟨final.x, final.y, final.direction, final.hit_obstacle, final.obstacle_at,
    final.processed, cmdString.drop final.processed⟩

/-- rover.py lines 78-145: `rover_command` — validate, then simulate. -/
def rover_command (data : Json) : Except PyErr RoverResult := do
  validate_input_or_raise data
  rover_command_body data

/-- A request that passes validation although `start.x` is a string: the
validator never inspects the types of `start.x` and `start.y`. -/
def startTypeFaultRequest : Json :=
  .obj [("commands", .str "f"),
        ("start", .obj [("x", .str "a"), ("y", .int 0), ("dir", .str "N")])]

/-- A validated request whose start position lies outside the grid. -/
def outOfBoundsStartRequest : Json :=
  .obj [("grid", .obj [("width", .int 5), ("height", .int 5)]),
        ("start", .obj [("x", .int 7), ("y", .int 0), ("dir", .str "N")]),
        ("commands", .str "")]

/-- Main invariant of the command loop, starting from a state with no hit
recorded and counter `p`: the counter never decreases; if the loop ends
with no hit then no obstacle is recorded and every command was counted;
if it ends with a hit then it stopped at the command at offset
`processed - p` of the remaining commands, a move command whose wrapped
candidate position — computed from the final pose — is in the obstacle
set and is recorded in `obstacle_at`. -/
theorem simLoop_spec (width height : Int) (obs : List (Int × Int)) :
    ∀ (cmds : List Char) (x y : Int) (d : Dir) (p : Nat) (t : SimState),
      t = simLoop width height obs cmds ⟨x, y, d, false, none, p⟩ →
      p ≤ t.processed ∧
      (t.hit_obstacle = false →
        t.obstacle_at = none ∧ t.processed = p + cmds.length) ∧
      (t.hit_obstacle = true →
        t.processed - p < cmds.length ∧
        ∃ pos, t.obstacle_at = some pos ∧ pos ∈ obs ∧
          ∃ c, cmds.get? (t.processed - p) = some c ∧ (c = 'f' ∨ c = 'b') ∧
            pos = candidate width height t.x t.y t.dir c) := by
  intro cmds
  induction cmds with
  | nil =>
    intro x y d p t ht
    subst ht
    simp [simLoop]
  | cons c rest ih =>
    intro x y d p t ht
    by_cases h1 : c = 'l'
    · subst ht
      rw [show simLoop width height obs (c :: rest) ⟨x, y, d, false, none, p⟩ =
            simLoop width height obs rest ⟨x, y, turnLeft d, false, none, p + 1⟩ by
          simp [simLoop, h1]]
      obtain ⟨Hle, Hfalse, Htrue⟩ := ih x y (turnLeft d) (p + 1) _ rfl
      refine ⟨by omega, ?_, ?_⟩
      · intro hf
        obtain ⟨h2, h3⟩ := Hfalse hf
        refine ⟨h2, ?_⟩
        simp only [List.length_cons]
        omega
      · intro htr
        obtain ⟨hlt, pos, hoat, hmem, c', hget, hfb, hcand⟩ := Htrue htr
        refine ⟨by simp only [List.length_cons]; omega, pos, hoat, hmem, c', ?_, hfb, hcand⟩
        rw [show (simLoop width height obs rest
              ⟨x, y, turnLeft d, false, none, p + 1⟩).processed - p =
            ((simLoop width height obs rest
              ⟨x, y, turnLeft d, false, none, p + 1⟩).processed - (p + 1)) + 1 by omega]
        rw [List.get?_cons_succ]
        exact hget
    · by_cases h2 : c = 'r'
      · subst ht
        rw [show simLoop width height obs (c :: rest) ⟨x, y, d, false, none, p⟩ =
              simLoop width height obs rest ⟨x, y, turnRight d, false, none, p + 1⟩ by
            simp [simLoop, h1, h2]]
        obtain ⟨Hle, Hfalse, Htrue⟩ := ih x y (turnRight d) (p + 1) _ rfl
        refine ⟨by omega, ?_, ?_⟩
        · intro hf
          obtain ⟨h3, h4⟩ := Hfalse hf
          refine ⟨h3, ?_⟩
          simp only [List.length_cons]
          omega
        · intro htr
          obtain ⟨hlt, pos, hoat, hmem, c', hget, hfb, hcand⟩ := Htrue htr
          refine ⟨by simp only [List.length_cons]; omega, pos, hoat, hmem, c', ?_, hfb, hcand⟩
          rw [show (simLoop width height obs rest
                ⟨x, y, turnRight d, false, none, p + 1⟩).processed - p =
              ((simLoop width height obs rest
                ⟨x, y, turnRight d, false, none, p + 1⟩).processed - (p + 1)) + 1 by omega]
          rw [List.get?_cons_succ]
          exact hget
      · by_cases h3 : c = 'f' ∨ c = 'b'
        · by_cases hob : candidate width height x y d c ∈ obs
          · subst ht
            rw [show simLoop width height obs (c :: rest) ⟨x, y, d, false, none, p⟩ =
                  ⟨x, y, d, true, some (candidate width height x y d c), p⟩ by
                simp [simLoop, h1, h2, h3, hob]]
            refine ⟨Nat.le_refl p, ?_, ?_⟩
            · intro hf
              simp at hf
            · intro _
              exact ⟨by simp, candidate width height x y d c, rfl, hob, c, by simp, h3, rfl⟩
          · subst ht
            rw [show simLoop width height obs (c :: rest) ⟨x, y, d, false, none, p⟩ =
                  simLoop width height obs rest
                    ⟨(candidate width height x y d c).1,
                     (candidate width height x y d c).2, d, false, none, p + 1⟩ by
                simp [simLoop, h1, h2, h3, hob]]
            obtain ⟨Hle, Hfalse, Htrue⟩ :=
              ih (candidate width height x y d c).1 (candidate width height x y d c).2 d
                (p + 1) _ rfl
            refine ⟨by omega, ?_, ?_⟩
            · intro hf
              obtain ⟨h4, h5⟩ := Hfalse hf
              refine ⟨h4, ?_⟩
              simp only [List.length_cons]
              omega
            · intro htr
              obtain ⟨hlt, pos, hoat, hmem, c', hget, hfb, hcand⟩ := Htrue htr
              refine ⟨by simp only [List.length_cons]; omega, pos, hoat, hmem, c', ?_, hfb, hcand⟩
              rw [show (simLoop width height obs rest
                    ⟨(candidate width height x y d c).1,
                     (candidate width height x y d c).2, d, false, none, p + 1⟩).processed - p =
                  ((simLoop width height obs rest
                    ⟨(candidate width height x y d c).1,
                     (candidate width height x y d c).2, d, false, none,
                     p + 1⟩).processed - (p + 1)) + 1 by omega]
              rw [List.get?_cons_succ]
              exact hget
        · subst ht
          rw [show simLoop width height obs (c :: rest) ⟨x, y, d, false, none, p⟩ =
                simLoop width height obs rest ⟨x, y, d, false, none, p + 1⟩ by
              simp [simLoop, h1, h2, h3]]
          obtain ⟨Hle, Hfalse, Htrue⟩ := ih x y d (p + 1) _ rfl
          refine ⟨by omega, ?_, ?_⟩
          · intro hf
            obtain ⟨h4, h5⟩ := Hfalse hf
            refine ⟨h4, ?_⟩
            simp only [List.length_cons]
            omega
          · intro htr
            obtain ⟨hlt, pos, hoat, hmem, c', hget, hfb, hcand⟩ := Htrue htr
            refine ⟨by simp only [List.length_cons]; omega, pos, hoat, hmem, c', ?_, hfb, hcand⟩
            rw [show (simLoop width height obs rest
                  ⟨x, y, d, false, none, p + 1⟩).processed - p =
                ((simLoop width height obs rest
                  ⟨x, y, d, false, none, p + 1⟩).processed - (p + 1)) + 1 by omega]
            rw [List.get?_cons_succ]
            exact hget

/-- The wrapped candidate position always lies inside the grid: both
components are computed with `%` by a positive modulus. -/
theorem candidate_bounds (width height x y : Int) (d : Dir) (c : Char)
    (hw : 0 < width) (hh : 0 < height) :
    0 ≤ (candidate width height x y d c).1 ∧
    (candidate width height x y d c).1 < width ∧
    0 ≤ (candidate width height x y d c).2 ∧
    (candidate width height x y d c).2 < height := by
  by_cases hc : c = 'b' <;>
    simp only [candidate, hc, if_true, if_false, reduceIte] <;>
    exact ⟨Int.emod_nonneg _ (by omega), Int.emod_lt_of_pos _ hw,
      Int.emod_nonneg _ (by omega), Int.emod_lt_of_pos _ hh⟩

/-- The command loop keeps the position inside the grid: each committed
move is a wrapped candidate, and every other step leaves the position
unchanged. -/
theorem simLoop_bounds (width height : Int) (obs : List (Int × Int))
    (hw : 0 < width) (hh : 0 < height) :
    ∀ (cmds : List Char) (x y : Int) (d : Dir) (hit : Bool)
      (oat : Option (Int × Int)) (p : Nat) (t : SimState),
      t = simLoop width height obs cmds ⟨x, y, d, hit, oat, p⟩ →
      0 ≤ x → x < width → 0 ≤ y → y < height →
      0 ≤ t.x ∧ t.x < width ∧ 0 ≤ t.y ∧ t.y < height := by
  intro cmds
  induction cmds with
  | nil =>
    intro x y d hit oat p t ht hx1 hx2 hy1 hy2
    subst ht
    simp only [simLoop]
    exact ⟨hx1, hx2, hy1, hy2⟩
  | cons c rest ih =>
    intro x y d hit oat p t ht hx1 hx2 hy1 hy2
    by_cases h1 : c = 'l'
    · subst ht
      rw [show simLoop width height obs (c :: rest) ⟨x, y, d, hit, oat, p⟩ =
            simLoop width height obs rest ⟨x, y, turnLeft d, hit, oat, p + 1⟩ by
          simp [simLoop, h1]]
      exact ih x y (turnLeft d) hit oat (p + 1) _ rfl hx1 hx2 hy1 hy2
    · by_cases h2 : c = 'r'
      · subst ht
        rw [show simLoop width height obs (c :: rest) ⟨x, y, d, hit, oat, p⟩ =
              simLoop width height obs rest ⟨x, y, turnRight d, hit, oat, p + 1⟩ by
            simp [simLoop, h1, h2]]
        exact ih x y (turnRight d) hit oat (p + 1) _ rfl hx1 hx2 hy1 hy2
      · by_cases h3 : c = 'f' ∨ c = 'b'
        · by_cases hob : candidate width height x y d c ∈ obs
          · subst ht
            rw [show simLoop width height obs (c :: rest) ⟨x, y, d, hit, oat, p⟩ =
                  ⟨x, y, d, true, some (candidate width height x y d c), p⟩ by
                simp [simLoop, h1, h2, h3, hob]]
            exact ⟨hx1, hx2, hy1, hy2⟩
          · subst ht
            rw [show simLoop width height obs (c :: rest) ⟨x, y, d, hit, oat, p⟩ =
                  simLoop width height obs rest
                    ⟨(candidate width height x y d c).1,
                     (candidate width height x y d c).2, d, hit, oat, p + 1⟩ by
                simp [simLoop, h1, h2, h3, hob]]
            obtain ⟨b1, b2, b3, b4⟩ := candidate_bounds width height x y d c hw hh
            exact ih (candidate width height x y d c).1
              (candidate width height x y d c).2 d hit oat (p + 1) _ rfl b1 b2 b3 b4
        · subst ht
          rw [show simLoop width height obs (c :: rest) ⟨x, y, d, hit, oat, p⟩ =
                simLoop width height obs rest ⟨x, y, d, hit, oat, p + 1⟩ by
              simp [simLoop, h1, h2, h3]]
          exact ih x y d hit oat (p + 1) _ rfl hx1 hx2 hy1 hy2

/-- A run consisting only of turn commands never touches the position,
the hit state, or the obstacle location, and counts every command. -/
theorem simLoop_turns (width height : Int) (obs : List (Int × Int)) :
    ∀ (cmds : List Char) (x y : Int) (d : Dir) (hit : Bool)
      (oat : Option (Int × Int)) (p : Nat) (t : SimState),
      t = simLoop width height obs cmds ⟨x, y, d, hit, oat, p⟩ →
      (∀ c ∈ cmds, c = 'l' ∨ c = 'r') →
      t.x = x ∧ t.y = y ∧ t.hit_obstacle = hit ∧ t.obstacle_at = oat ∧
      t.processed = p + cmds.length := by
  intro cmds
  induction cmds with
  | nil =>
    intro x y d hit oat p t ht _
    subst ht
    simp [simLoop]
  | cons c rest ih =>
    intro x y d hit oat p t ht hall
    have hrest : ∀ c ∈ rest, c = 'l' ∨ c = 'r' :=
      fun c hc => hall c (List.mem_cons_of_mem _ hc)
    rcases hall c (List.mem_cons_self c rest) with h1 | h1
    · subst ht
      rw [show simLoop width height obs (c :: rest) ⟨x, y, d, hit, oat, p⟩ =
            simLoop width height obs rest ⟨x, y, turnLeft d, hit, oat, p + 1⟩ by
          simp [simLoop, h1]]
      obtain ⟨e1, e2, e3, e4, e5⟩ := ih x y (turnLeft d) hit oat (p + 1) _ rfl hrest
      refine ⟨e1, e2, e3, e4, ?_⟩
      simp only [List.length_cons]
      omega
    · subst ht
      rw [show simLoop width height obs (c :: rest) ⟨x, y, d, hit, oat, p⟩ =
            simLoop width height obs rest ⟨x, y, turnRight d, hit, oat, p + 1⟩ by
          simp [simLoop, h1]]
      obtain ⟨e1, e2, e3, e4, e5⟩ := ih x y (turnRight d) hit oat (p + 1) _ rfl hrest
      refine ⟨e1, e2, e3, e4, ?_⟩
      simp only [List.length_cons]
      omega

/-- C2: for every grid, start pose, obstacle set, and command string, the
result satisfies: `hit_obstacle` is true iff `obstacle_at` is non-null;
and when `hit_obstacle` is true, `obstacle_at` is a member of the
obstacle set and equals the wrapped candidate position the rover
attempted to move into on the command at index `processed_commands` of
the command string. -/
theorem obstacle_consistency (width height x y : Int) (d : Dir)
    (obs : List (Int × Int)) (cmds : List Char)
    (hw : 0 < width) (hh : 0 < height) :
    ((simulate width height x y d obs cmds).hit_obstacle = true ↔
      (simulate width height x y d obs cmds).obstacle_at ≠ none) ∧
    ((simulate width height x y d obs cmds).hit_obstacle = true →
      ∃ pos, (simulate width height x y d obs cmds).obstacle_at = some pos ∧
        pos ∈ obs ∧
        ∃ c, cmds.get? (simulate width height x y d obs cmds).processed = some c ∧
          (c = 'f' ∨ c = 'b') ∧
          pos = candidate width height (simulate width height x y d obs cmds).x
            (simulate width height x y d obs cmds).y
            (simulate width height x y d obs cmds).dir c) := by
  obtain ⟨Hle, Hf, Ht⟩ := simLoop_spec width height obs cmds x y d 0 _ rfl
  simp only [simulate]
  constructor
  · cases hsh : (simLoop width height obs cmds ⟨x, y, d, false, none, 0⟩).hit_obstacle with
    | false =>
      obtain ⟨ho, _⟩ := Hf hsh
      simp [ho]
    | true =>
      obtain ⟨hlt, pos, hoat, _⟩ := Ht hsh
      simp [hoat]
  · intro htr
    obtain ⟨hlt, pos, hoat, hmem, c, hget, hfb, hcand⟩ := Ht htr
    exact ⟨pos, hoat, hmem, c, by simpa using hget, hfb, hcand⟩

theorem obstacle_consistency_witness :
    ∃ pos, (simulate 5 5 0 0 Dir.E [(2, 0)] ("fff".toList)).obstacle_at = some pos ∧
      pos ∈ [((2 : Int), (0 : Int))] ∧
      ∃ c, ("fff".toList).get?
          (simulate 5 5 0 0 Dir.E [(2, 0)] ("fff".toList)).processed = some c ∧
        (c = 'f' ∨ c = 'b') ∧
        pos = candidate 5 5 (simulate 5 5 0 0 Dir.E [(2, 0)] ("fff".toList)).x
          (simulate 5 5 0 0 Dir.E [(2, 0)] ("fff".toList)).y
          (simulate 5 5 0 0 Dir.E [(2, 0)] ("fff".toList)).dir c :=
  (obstacle_consistency 5 5 0 0 Dir.E [(2, 0)] ("fff".toList)
    (by decide) (by decide)).2 (by decide)

/-- C3: for every grid, start pose, obstacle set, and command string, the
result satisfies `processed_commands + length(remaining_commands) =
length(commands)`, and `remaining_commands` is exactly the suffix of the
command string starting at index `processed_commands`. -/
theorem conservation (width height x y : Int) (d : Dir)
    (obs : List (Int × Int)) (cmds : List Char)
    (hw : 0 < width) (hh : 0 < height) :
    (simulate width height x y d obs cmds).processed +
      (simulate width height x y d obs cmds).remaining.length = cmds.length ∧
    (simulate width height x y d obs cmds).remaining =
      cmds.drop (simulate width height x y d obs cmds).processed := by
  obtain ⟨Hle, Hf, Ht⟩ := simLoop_spec width height obs cmds x y d 0 _ rfl
  simp only [simulate]
  have hple : (simLoop width height obs cmds ⟨x, y, d, false, none, 0⟩).processed ≤
      cmds.length := by
    cases hsh : (simLoop width height obs cmds ⟨x, y, d, false, none, 0⟩).hit_obstacle with
    | false => have := (Hf hsh).2; omega
    | true => have := (Ht hsh).1; omega
  constructor
  · rw [List.length_drop]
    omega
  · simp

theorem conservation_witness :
    (simulate 5 5 0 0 Dir.E [(2, 0)] ("fff".toList)).processed +
      (simulate 5 5 0 0 Dir.E [(2, 0)] ("fff".toList)).remaining.length =
        ("fff".toList).length ∧
    (simulate 5 5 0 0 Dir.E [(2, 0)] ("fff".toList)).remaining =
      ("fff".toList).drop (simulate 5 5 0 0 Dir.E [(2, 0)] ("fff".toList)).processed :=
  conservation 5 5 0 0 Dir.E [(2, 0)] ("fff".toList) (by decide) (by decide)

/-- C4 (amended): whenever the grid dimensions are positive and the start
position is already within bounds, the final position satisfies
`x ∈ [0, width)` and `y ∈ [0, height)`, including when the command
string is empty or contains no `f`/`b` commands, and including
negative-wrapping moves.  (The unamended claim allowed an arbitrary
integer start position; the code never wraps the start position, so the
hypothesis that the start is in bounds is necessary.) -/
theorem bounds_invariant (width height x y : Int) (d : Dir)
    (obs : List (Int × Int)) (cmds : List Char)
    (hw : 0 < width) (hh : 0 < height)
    (hx1 : 0 ≤ x) (hx2 : x < width) (hy1 : 0 ≤ y) (hy2 : y < height) :
    0 ≤ (simulate width height x y d obs cmds).x ∧
    (simulate width height x y d obs cmds).x < width ∧
    0 ≤ (simulate width height x y d obs cmds).y ∧
    (simulate width height x y d obs cmds).y < height := by
  obtain ⟨b1, b2, b3, b4⟩ :=
    simLoop_bounds width height obs hw hh cmds x y d false none 0 _ rfl hx1 hx2 hy1 hy2
  simp only [simulate]
  exact ⟨b1, b2, b3, b4⟩

theorem bounds_invariant_witness :
    0 ≤ (simulate 5 5 0 0 Dir.W [] ("bll".toList)).x ∧
    (simulate 5 5 0 0 Dir.W [] ("bll".toList)).x < 5 ∧
    0 ≤ (simulate 5 5 0 0 Dir.W [] ("bll".toList)).y ∧
    (simulate 5 5 0 0 Dir.W [] ("bll".toList)).y < 5 :=
  bounds_invariant 5 5 0 0 Dir.W [] ("bll".toList) (by decide) (by decide)
    (by decide) (by decide) (by decide) (by decide)

/-- C7: a command character that passes case-insensitive validation but is
not one of the exact lowercase characters `l`, `r`, `f`, `b` (for example
uppercase `'F'`) is treated by the simulator as a no-op: it leaves the
pose unchanged, cannot trigger an obstacle stop, and still increments
`processed_commands` by 1 — so a run on the single command `'F'` ends
with `processed_commands = 1` and the start pose unchanged. -/
theorem unknown_command_noop (c : Char)
    (hvalid : valid_cmds.contains c.toLower = true)
    (hl : c ≠ 'l') (hr : c ≠ 'r') (hf : c ≠ 'f') (hb : c ≠ 'b') :
    (∀ (width height : Int) (obs : List (Int × Int)) (rest : List Char) (s : SimState),
      simLoop width height obs (c :: rest) s =
        simLoop width height obs rest { s with processed := s.processed + 1 }) ∧
    (∀ (width height x y : Int) (d : Dir) (obs : List (Int × Int)),
      simulate width height x y d obs [c] = ⟨x, y, d, false, none, 1, []⟩) := by
  constructor
  · intro width height obs rest s
    simp [simLoop, hl, hr, hf, hb]
  · intro width height x y d obs
    simp [simulate, simLoop, hl, hr, hf, hb]

theorem unknown_command_noop_witness :
    valid_cmds.contains 'F'.toLower = true ∧
    simulate 10 10 0 0 Dir.N [] ['F'] = ⟨0, 0, Dir.N, false, none, 1, []⟩ :=
  ⟨by decide,
    (unknown_command_noop 'F' (by decide) (by decide) (by decide) (by decide)
      (by decide)).2 10 10 0 0 Dir.N []⟩

/-- C8: for every pose within bounds and every `f` or `b` command, the
wrapped candidate position lies in `[0, width) × [0, height)` — the
wrap uses non-negative mathematical modulo — and in particular grid
5×5, start (4,0,E), commands `"f"` ends at position (0,0) facing E with
no obstacle hit and `processed_commands = 1`. -/
theorem wrap_modulo (width height x y : Int) (d : Dir) (c : Char)
    (hw : 0 < width) (hh : 0 < height)
    (hx1 : 0 ≤ x) (hx2 : x < width) (hy1 : 0 ≤ y) (hy2 : y < height)
    (hc : c = 'f' ∨ c = 'b') :
    (0 ≤ (candidate width height x y d c).1 ∧
     (candidate width height x y d c).1 < width ∧
     0 ≤ (candidate width height x y d c).2 ∧
     (candidate width height x y d c).2 < height) ∧
    simulate 5 5 4 0 Dir.E [] ("f".toList) =
      ⟨0, 0, Dir.E, false, none, 1, []⟩ :=
  ⟨candidate_bounds width height x y d c hw hh, by decide⟩

theorem wrap_modulo_witness :
    (0 ≤ (candidate 5 5 0 0 Dir.W 'f').1 ∧
     (candidate 5 5 0 0 Dir.W 'f').1 < 5 ∧
     0 ≤ (candidate 5 5 0 0 Dir.W 'f').2 ∧
     (candidate 5 5 0 0 Dir.W 'f').2 < 5) ∧
    simulate 5 5 4 0 Dir.E [] ("f".toList) =
      ⟨0, 0, Dir.E, false, none, 1, []⟩ :=
  wrap_modulo 5 5 0 0 Dir.W 'f' (by decide) (by decide) (by decide) (by decide)
    (by decide) (by decide) (Or.inl rfl)

/-- C9: an obstacle located at the rover's starting position is never
checked at the start of simulation: for every input whose start position
is a member of the obstacle set and whose command string contains only
`l` and `r` characters (or is empty), the result has
`hit_obstacle = false`, `obstacle_at = null`, and
`processed_commands = length(commands)`. -/
theorem start_obstacle_never_checked (width height x y : Int) (d : Dir)
    (obs : List (Int × Int)) (cmds : List Char)
    (hw : 0 < width) (hh : 0 < height)
    (hmem : (x, y) ∈ obs) (hturn : ∀ c ∈ cmds, c = 'l' ∨ c = 'r') :
    (simulate width height x y d obs cmds).hit_obstacle = false ∧
    (simulate width height x y d obs cmds).obstacle_at = none ∧
    (simulate width height x y d obs cmds).processed = cmds.length := by
  obtain ⟨e1, e2, e3, e4, e5⟩ :=
    simLoop_turns width height obs cmds x y d false none 0 _ rfl hturn
  simp only [simulate]
  exact ⟨e3, e4, by omega⟩

theorem start_obstacle_never_checked_witness :
    (simulate 5 5 1 1 Dir.N [(1, 1)] ['l', 'r']).hit_obstacle = false ∧
    (simulate 5 5 1 1 Dir.N [(1, 1)] ['l', 'r']).obstacle_at = none ∧
    (simulate 5 5 1 1 Dir.N [(1, 1)] ['l', 'r']).processed = ['l', 'r'].length :=
  start_obstacle_never_checked 5 5 1 1 Dir.N [(1, 1)] ['l', 'r']
    (by decide) (by decide) (by decide) (by decide)

/-- C10: on a grid with `width = 1`, an `f` or `b` command while facing E
or W computes a candidate position equal to the rover's own current
cell (self-wrap), and that candidate is still obstacle-checked: if the
current cell is in the obstacle set the simulation stops immediately
with `hit_obstacle = true`, `obstacle_at` equal to the current
position, the pose unchanged, and `processed_commands = 0`; the same
holds for `height = 1` with N/S moves. -/
theorem self_wrap_obstacle :
    (∀ (height x y : Int) (d : Dir) (c : Char) (obs : List (Int × Int))
      (rest : List Char),
      0 ≤ x → x < 1 → 0 ≤ y → y < height → (d = Dir.E ∨ d = Dir.W) →
      (c = 'f' ∨ c = 'b') → (x, y) ∈ obs →
      candidate 1 height x y d c = (x, y) ∧
      simulate 1 height x y d obs (c :: rest) =
        ⟨x, y, d, true, some (x, y), 0, c :: rest⟩) ∧
    (∀ (width x y : Int) (d : Dir) (c : Char) (obs : List (Int × Int))
      (rest : List Char),
      0 ≤ x → x < width → 0 ≤ y → y < 1 → (d = Dir.N ∨ d = Dir.S) →
      (c = 'f' ∨ c = 'b') → (x, y) ∈ obs →
      candidate width 1 x y d c = (x, y) ∧
      simulate width 1 x y d obs (c :: rest) =
        ⟨x, y, d, true, some (x, y), 0, c :: rest⟩) := by
  constructor
  · intro height x y d c obs rest hx1 hx2 hy1 hy2 hd hc hmem
    have hx0 : x = 0 := by omega
    subst hx0
    have hy : y % height = y := Int.emod_eq_of_lt hy1 hy2
    have hcand : candidate 1 height 0 y d c = (0, y) := by
      rcases hd with rfl | rfl <;> rcases hc with rfl | rfl <;>
        simp [candidate, move_delta, hy]
    have hnl : c ≠ 'l' := by rcases hc with rfl | rfl <;> decide
    have hnr : c ≠ 'r' := by rcases hc with rfl | rfl <;> decide
    have hm2 : candidate 1 height 0 y d c ∈ obs := by rw [hcand]; exact hmem
    refine ⟨hcand, ?_⟩
    simp only [simulate]
    rw [show simLoop 1 height obs (c :: rest) ⟨0, y, d, false, none, 0⟩ =
          ⟨0, y, d, true, some (candidate 1 height 0 y d c), 0⟩ by
        simp [simLoop, hnl, hnr, hc, hm2]]
    rw [hcand]
    rfl
  · intro width x y d c obs rest hx1 hx2 hy1 hy2 hd hc hmem
    have hy0 : y = 0 := by omega
    subst hy0
    have hx : x % width = x := Int.emod_eq_of_lt hx1 hx2
    have hcand : candidate width 1 x 0 d c = (x, 0) := by
      rcases hd with rfl | rfl <;> rcases hc with rfl | rfl <;>
        simp [candidate, move_delta, hx]
    have hnl : c ≠ 'l' := by rcases hc with rfl | rfl <;> decide
    have hnr : c ≠ 'r' := by rcases hc with rfl | rfl <;> decide
    have hm2 : candidate width 1 x 0 d c ∈ obs := by rw [hcand]; exact hmem
    refine ⟨hcand, ?_⟩
    simp only [simulate]
    rw [show simLoop width 1 obs (c :: rest) ⟨x, 0, d, false, none, 0⟩ =
          ⟨x, 0, d, true, some (candidate width 1 x 0 d c), 0⟩ by
        simp [simLoop, hnl, hnr, hc, hm2]]
    rw [hcand]
    rfl

theorem self_wrap_obstacle_witness :
    (candidate 1 3 0 1 Dir.E 'f' = (0, 1) ∧
      simulate 1 3 0 1 Dir.E [(0, 1)] ['f'] =
        ⟨0, 1, Dir.E, true, some (0, 1), 0, ['f']⟩) ∧
    (candidate 3 1 1 0 Dir.N 'b' = (1, 0) ∧
      simulate 3 1 1 0 Dir.N [(1, 0)] ['b'] =
        ⟨1, 0, Dir.N, true, some (1, 0), 0, ['b']⟩) :=
  ⟨self_wrap_obstacle.1 3 0 1 Dir.E 'f' [(0, 1)] [] (by decide) (by decide)
      (by decide) (by decide) (Or.inl rfl) (Or.inl rfl) (by decide),
    self_wrap_obstacle.2 3 1 0 Dir.N 'b' [(1, 0)] [] (by decide) (by decide)
      (by decide) (by decide) (Or.inl rfl) (Or.inr rfl) (by decide)⟩

/-- C4 counterexample: the validator accepts any integer start position
and the handler never wraps it, so a validated request with start x = 7
on a width-5 grid and an empty command string is answered with final
x = 7, which is not in `[0, 5)` — refuting the claim for inputs whose
start position lies outside the grid. -/
theorem bounds_claim_counterexample :
    validate_input_or_raise outOfBoundsStartRequest = .ok () ∧
    rover_command outOfBoundsStartRequest =
      .ok ⟨Json.int 7, Json.int 0, Json.str "N", false, none, 0, ""⟩ ∧
    ¬((7 : Int) < 5) := ⟨rfl, rfl, by decide⟩

/-- C5: the claim is the code's own stated contract, and the code breaks
it — `validate_input_or_raise` never inspects the types of `start.x`
and `start.y`, so the request `{"commands": "f", "start": {"x": "a",
"y": 0, "dir": "N"}}` passes validation and then `rover_command` raises
`TypeError` at `(x + dx) % width` (string plus int), reaching the 500
catch-all that should be unreachable for validated inputs. -/
theorem validated_input_reaches_fault :
    validate_input_or_raise startTypeFaultRequest = .ok () ∧
    rover_command startTypeFaultRequest = .error PyErr.typeError := ⟨rfl, rfl⟩

/-- C6 counterexample: a request body object that omits the `commands`
field is rejected by `validate_input_or_raise` with a `MissingField`
validation error, not accepted and simulated with a default empty
command string. -/
theorem omitted_commands_rejected :
    validate_input_or_raise (Json.obj []) =
      .error (PyErr.validation "Missing 'commands' field.") := rfl

/-- C6 (amended): `commands` is the one required field of the request
body — every request object omitting it is rejected by validation with
`Missing 'commands' field.` — while all other fields are optional: a
body carrying only an empty `commands` string is accepted and simulated
with the defaults, yielding `processed_commands = 0` and the default
start pose (0,0,N) unchanged. -/
theorem commands_required_others_optional :
    (∀ fields : List (String × Json), lookup fields "commands" = none →
      validate_input_or_raise (Json.obj fields) =
        .error (PyErr.validation "Missing 'commands' field.")) ∧
    rover_command (Json.obj [("commands", Json.str "")]) =
      .ok ⟨Json.int 0, Json.int 0, Json.str "N", false, none, 0, ""⟩ := by
  constructor
  · intro fields hnone
    have h1 : pyContains "commands" (Json.obj fields) = .ok false := by
      simp [pyContains, hnone]
    simp only [validate_input_or_raise]
    rw [h1]
    rfl
  · rfl

theorem commands_required_others_optional_witness :
    validate_input_or_raise (Json.obj [("grid", Json.obj [])]) =
      .error (PyErr.validation "Missing 'commands' field.") :=
  commands_required_others_optional.1 [("grid", Json.obj [])] rfl

end MarsRover

/-- C1: grid 5×5, start (0,0,E), obstacle (2,0), commands "fff": the result
is position (1,0) facing E, hit_obstacle = true, obstacle_at = (2,0),
processed_commands = 1, remaining_commands = "ff" — the first 'f' is
applied, the second targets the obstacle and stops the loop without
committing the move or counting that command. -/
theorem MarsRover.scenario_A :
    MarsRover.simulate 5 5 0 0 MarsRover.Dir.E [(2, 0)] ("fff".toList) =
      ⟨1, 0, MarsRover.Dir.E, true, some (2, 0), 1, "ff".toList⟩ := by
  decide
